import Mathlib

/-!
Verification development for the `FaceCamera` component
(`src/components/face/FaceCamera.tsx` of the AttendEase repository).

The component wraps a browser camera: `startCamera` negotiates a stream by
trying a fixed priority list of constraint candidates, waits for the video
element to become ready, `capture` copies the current frame onto the hidden
canvas and returns it, and `stopCamera` tears the session down.

The embedding below mirrors that source file: the constraint ladder, the
error taxonomy of the catch handler, the single-resolution readiness wait
(event handlers plus two timeout fallbacks), the capture preconditions and
blank-frame heuristic, and the teardown.  Browser-supplied behaviour
(permission probe outcome, `getUserMedia` responses per candidate,
video-element fields, frame pixels) is an explicit environment record.
-/

set_option linter.unusedVariables false

namespace FaceCam

/-- One RGBA pixel as read back from canvas image data. -/
structure Pixel where
  r : Nat
  g : Nat
  b : Nat
  a : Nat

/-- Camera facing hint of a constraint candidate (`facingMode`). -/
inductive FacingMode
  | exactUser
  | user
  | any
  deriving DecidableEq

/-- An `{ ideal, min }` numeric range hint. -/
structure RangeHint where
  ideal : Nat
  min : Nat
  deriving DecidableEq

/-- One `getUserMedia` constraint candidate. -/
structure Constraint where
  facing : FacingMode
  width : Option RangeHint
  height : Option RangeHint
  frameRate : Option RangeHint
  deriving DecidableEq

/-- The fixed priority list of constraint candidates tried by `startCamera`
(source `constraintOptions`): explicit front camera with ideal settings,
looser front camera, most basic front camera, then any video source. -/
def constraintOptions (isMobile : Bool) : List Constraint :=
  [ { facing := FacingMode.exactUser
    , width := some (if isMobile then ⟨640, 320⟩ else ⟨640, 320⟩)
    , height := some (if isMobile then ⟨480, 240⟩ else ⟨480, 240⟩)
    , frameRate := some ⟨30, 15⟩ }
  , { facing := FacingMode.user
    , width := some ⟨480, 240⟩
    , height := some ⟨360, 180⟩
    , frameRate := some ⟨24, 10⟩ }
  , { facing := FacingMode.user, width := none, height := none, frameRate := none }
  , { facing := FacingMode.any, width := none, height := none, frameRate := none } ]

/-- A live media stream: resolved pixel dimensions plus its hardware tracks. -/
structure Stream where
  width : Nat
  height : Nat
  tracks : List Nat
  deriving DecidableEq

/-- The error names the catch handler of `startCamera` distinguishes. -/
inductive CamErrorName
  | notAllowed
  | notFound
  | notReadable
  | other
  deriving DecidableEq

/-- An error value: a name (the DOMException name) and a message. -/
structure CamError where
  name : CamErrorName
  message : String
  deriving DecidableEq

/-- The user-facing message the catch handler derives from an error
(source lines 216-229 of FaceCamera.tsx). -/
def errorMessageFor (e : CamError) : String :=
  match e.name with
  | CamErrorName.notAllowed =>
      "Camera access denied. Please allow camera permissions and try again."
  | CamErrorName.notFound => "No camera found on this device."
  | CamErrorName.notReadable => "Camera is already in use by another application."
  | CamErrorName.other =>
      if e.message = "" then "Failed to access camera" else e.message

/-- Outcome of one `getUserMedia(constraintOptions[i])` call: a live stream,
a null resolution, or a raised error. -/
inductive GumResult
  | ok (s : Stream)
  | nullStream
  | err (e : CamError)
  deriving DecidableEq

/-- Whether a `getUserMedia` outcome yields a live stream. -/
def gumOk : GumResult → Bool
  | GumResult.ok _ => true
  | _ => false

/-- Whether a `getUserMedia` outcome is a raised permission denial. -/
def gumNotAllowed : GumResult → Bool
  | GumResult.err e => e.name = CamErrorName.notAllowed
  | _ => false

/-- Result of the constraint ladder loop of `startCamera`. -/
inductive LadderOutcome
  | success (i : Nat) (s : Stream)
  | thrown (e : CamError)
  | exhausted (lastError : Option CamError)
  deriving DecidableEq

/-- The constraint ladder (source lines 100-119): try each candidate index in
order; break on the first live stream; remember the last caught error; rethrow
immediately on a `NotAllowedError`.  Returns the list of attempted indices in
order together with the outcome. -/
def ladderFrom (gum : Nat → GumResult) :
    Option CamError → List Nat → List Nat × LadderOutcome
  | lastError, [] => ([], LadderOutcome.exhausted lastError)
  | lastError, i :: rest =>
    match gum i with
    | GumResult.ok s => ([i], LadderOutcome.success i s)
    | GumResult.nullStream =>
        let r := ladderFrom gum lastError rest
        (i :: r.1, r.2)
    | GumResult.err e =>
        if e.name = CamErrorName.notAllowed then ([i], LadderOutcome.thrown e)
        else
          let r := ladderFrom gum (some e) rest
          (i :: r.1, r.2)

/-! ### The readiness wait

`startCamera` wraps readiness in a promise resolved by the first of:
`loadeddata`, `canplay` (which delegates to the `loadeddata` handler), a
video `error` event, a shorter fallback timeout that checks
`video.readyState >= 2`, and an ultimate timeout that rejects outright. -/

/-- A settle action issued against the readiness promise. -/
inductive Settle
  | resolveOk
  | rejectLoad
  | rejectTimeout
  deriving DecidableEq

/-- The events that can reach the readiness wait. -/
inductive WEvent
  | loadeddata
  | canplay
  | errorEvt
  | shortTimeout
  | ultimateTimeout
  deriving DecidableEq

/-- State of the readiness wait: the `resolved` flag, whether the three event
listeners are still registered, and the settle actions issued so far (a
promise keeps only the first). -/
structure WaitState where
  resolved : Bool
  listenersOn : Bool
  settles : List Settle
  deriving DecidableEq

/-- Initial wait state: not resolved, listeners registered, nothing settled. -/
def initWait : WaitState := { resolved := false, listenersOn := true, settles := [] }

/-- The `onLoadedData` handler (source lines 145-161): guard on `resolved`,
set it, remove all listeners, resolve (on mobile after a stabilization
delay, which does not change which settles are issued). -/
def onLoadedDataH (s : WaitState) : WaitState :=
  if s.resolved then s
  else { resolved := true, listenersOn := false
       , settles := s.settles ++ [Settle.resolveOk] }

/-- The `onCanPlay` handler (source lines 163-167): guard on `resolved`, then
delegate to `onLoadedData`. -/
def onCanPlayH (s : WaitState) : WaitState :=
  if s.resolved then s else onLoadedDataH s

/-- The video `error` handler (source lines 169-178): guard on `resolved`,
set it, remove all listeners, reject. -/
def onErrorH (s : WaitState) : WaitState :=
  if s.resolved then s
  else { resolved := true, listenersOn := false
       , settles := s.settles ++ [Settle.rejectLoad] }

/-- One step of the readiness wait.  DOM events reach their handler only
while the listeners are registered; the two timeouts always fire (they are
never cleared).  The shorter fallback (source lines 191-196) resolves via
`onLoadedData` when not yet resolved and `readyState >= 2`; the ultimate
timeout (source lines 199-204) rejects when not yet resolved — note it
neither sets `resolved` nor removes listeners. -/
def stepWait (readyState : Nat) (s : WaitState) : WEvent → WaitState
  | WEvent.loadeddata => if s.listenersOn then onLoadedDataH s else s
  | WEvent.canplay => if s.listenersOn then onCanPlayH s else s
  | WEvent.errorEvt => if s.listenersOn then onErrorH s else s
  | WEvent.shortTimeout =>
      if s.resolved = false ∧ 2 ≤ readyState then onLoadedDataH s else s
  | WEvent.ultimateTimeout =>
      if s.resolved = false then
        { s with settles := s.settles ++ [Settle.rejectTimeout] }
      else s

/-- Run the readiness wait over a sequence of events. -/
def runWait (readyState : Nat) (es : List WEvent) : WaitState :=
  es.foldl (stepWait readyState) initWait

/-- Delay of the shorter fallback timeout, in milliseconds
(`isMobile ? 3000 : 2000`). -/
def shortTimeoutMs (isMobile : Bool) : Nat := if isMobile then 3000 else 2000

/-- Delay of the ultimate fallback timeout, in milliseconds
(`isMobile ? 8000 : 5000`). -/
def ultimateTimeoutMs (isMobile : Bool) : Nat := if isMobile then 8000 else 5000

/-- The error the ultimate timeout rejects with. -/
def timeoutRejectError (isMobile : Bool) : CamError :=
  { name := CamErrorName.other
  , message := "Video not ready after " ++ toString (if isMobile then 8 else 5)
      ++ " seconds" }

/-- The error (if any) carried by a settle action. -/
def settleError (isMobile : Bool) : Settle → Option CamError
  | Settle.resolveOk => none
  | Settle.rejectLoad => some { name := CamErrorName.other, message := "Video failed to load" }
  | Settle.rejectTimeout => some (timeoutRejectError isMobile)

/-! ### Component state and `startCamera` -/

/-- The component's mutable state: the React state vector, the stream and
video refs, the identity and contents of the hidden capture canvas, the
set of hardware tracks that have been stopped, and the notifications sent
through the `onCameraReady` / `onError` callbacks. -/
structure CamState where
  isLoading : Bool
  isActive : Bool
  error : Option String
  hasPermission : Option Bool
  streamRef : Option Stream
  videoSrc : Option Stream
  stoppedTracks : List Nat
  canvasId : Nat
  canvasW : Nat
  canvasH : Nat
  canvasData : Nat → Nat → Pixel
  readyEvents : List Bool
  errorEvents : List String

/-- Component state right after mount. -/
def initState : CamState :=
  { isLoading := false, isActive := false, error := none, hasPermission := none
  , streamRef := none, videoSrc := none, stoppedTracks := []
  , canvasId := 0, canvasW := 0, canvasH := 0
  , canvasData := fun _ _ => ⟨0, 0, 0, 0⟩
  , readyEvents := [], errorEvents := [] }

/-- The environment a `startCamera` run observes: the permission probe
outcome, the device class, the `getUserMedia` response per candidate index,
whether the video ref is mounted, and the events reaching the readiness wait
(with the `readyState` the shorter fallback reads). -/
structure StartEnv where
  accessAvailable : Bool
  accessError : Option String
  isMobile : Bool
  gum : Nat → GumResult
  videoPresent : Bool
  waitEvents : List WEvent
  waitReadyState : Nat

/-- What a completed `startCamera` run yields: the boolean result, the error
the catch handler received (if it ran), the attempted candidate indices in
order, and the final component state. -/
structure StartResult where
  ok : Bool
  caught : Option CamError
  trace : List Nat
  state : CamState

/-- The message shown when the permission probe fails
(`accessCheck.error || 'Camera not available'`). -/
def accessFailMsg (accessError : Option String) : String :=
  match accessError with
  | some m => if m = "" then "Camera not available" else m
  | none => "Camera not available"

/-- The catch handler of `startCamera` (source lines 214-234): derive the
user-facing message, set `hasPermission` to false on a permission denial,
then set the error, notify `onError`, and set `hasPermission` to false
unconditionally. -/
def handleError (e : CamError) (st : CamState) : CamState :=
  let msg := errorMessageFor e
  let st1 :=
    if e.name = CamErrorName.notAllowed then { st with hasPermission := some false }
    else st
  { st1 with error := some msg
           , errorEvents := st1.errorEvents ++ [msg]
           , hasPermission := some false }

/-- The first settle action issued by the readiness wait, i.e. how the
readiness promise settles (a promise keeps only its first settle); `none`
means the promise never settles. -/
def waitSettle (env : StartEnv) : Option Settle :=
  (runWait env.waitReadyState env.waitEvents).settles.head?

/-- `startCamera` (source lines 39-239).  Returns `none` when the run
suspends forever (the readiness promise never settles); otherwise the
completed run.  Mirrors the source: permission probe, constraint ladder,
stream binding, readiness wait, catch handler, `finally` clearing
`isLoading`. -/
def startCamera (env : StartEnv) (st : CamState) : Option StartResult :=
  let st0 := { st with isLoading := true, error := none }
  if env.accessAvailable = false then
    let msg := accessFailMsg env.accessError
    some { ok := false, caught := none, trace := []
         , state := { st0 with error := some msg
                             , errorEvents := st0.errorEvents ++ [msg]
                             , hasPermission := some false
                             , isLoading := false } }
  else
    let st1 := { st0 with hasPermission := some true }
    let lr := ladderFrom env.gum none
        (List.range (constraintOptions env.isMobile).length)
    match lr.2 with
    | LadderOutcome.success _ s =>
        if env.videoPresent then
          let st2 := { st1 with videoSrc := some s, streamRef := some s }
          match waitSettle env with
          | none => none
          | some stl =>
              match settleError env.isMobile stl with
              | none =>
                  some { ok := true, caught := none, trace := lr.1
                       , state := { st2 with isActive := true
                                           , readyEvents := st2.readyEvents ++ [true]
                                           , isLoading := false } }
              | some e =>
                  some { ok := false, caught := some e, trace := lr.1
                       , state := { handleError e st2 with isLoading := false } }
        else
          some { ok := false, caught := none, trace := lr.1
               , state := { st1 with isLoading := false } }
    | LadderOutcome.thrown e =>
        some { ok := false, caught := some e, trace := lr.1
             , state := { handleError e st1 with isLoading := false } }
    | LadderOutcome.exhausted lastError =>
        let e := lastError.getD
          { name := CamErrorName.other
          , message := "Failed to access any camera configuration" }
        some { ok := false, caught := some e, trace := lr.1
             , state := { handleError e st1 with isLoading := false } }

/-- `stopCamera` (source lines 242-256): stop every track of the current
stream and drop the ref, detach the stream from the video element when it is
mounted, flip `isActive` off and notify `onCameraReady(false)`. -/
def stopCamera (videoPresent : Bool) (st : CamState) : CamState :=
  let stA :=
    match st.streamRef with
    | some s => { st with stoppedTracks := st.stoppedTracks ++ s.tracks
                        , streamRef := none }
    | none => st
  let stB := if videoPresent then { stA with videoSrc := none } else stA
  { stB with isActive := false, readyEvents := stB.readyEvents ++ [false] }

/-! ### `capture` -/

/-- Component configuration relevant to `capture`: the width/height props
(defaults 320 × 240). -/
structure Props where
  width : Nat
  height : Nat
  deriving DecidableEq

/-- The default props of the component. -/
def defaultProps : Props := { width := 320, height := 240 }

/-- The environment a `capture` call observes on the video element and
canvas: ref presence, device class, `readyState` (sampled again after the
mobile-only 500 ms wait), natural and on-screen dimensions, 2d-context
availability, whether the draw throws, and the current video frame as
rasterized at the capture dimensions. -/
structure CaptureEnv where
  videoPresent : Bool
  canvasPresent : Bool
  isMobile : Bool
  readyState : Nat
  readyStateAfterWait : Nat
  videoWidth : Nat
  videoHeight : Nat
  clientWidth : Nat
  clientHeight : Nat
  contextAvailable : Bool
  drawThrows : Bool
  frame : Nat → Nat → Pixel

/-- The readiness check of `capture` (source lines 275-290): `readyState`
at least 2, except that on mobile with `readyState` at least 1 the call
waits 500 ms once and rechecks. -/
def captureReady (env : CaptureEnv) : Bool :=
  if env.readyState < 2 then
    if env.isMobile = true ∧ 1 ≤ env.readyState then
      decide (2 ≤ env.readyStateAfterWait)
    else false
  else true

/-- The capture width after the mobile-only fallback (source lines 293-301):
when either natural dimension is zero on mobile, use
`video.clientWidth || width`. -/
def resolvedWidth (env : CaptureEnv) (p : Props) : Nat :=
  if (env.videoWidth = 0 ∨ env.videoHeight = 0) ∧ env.isMobile = true then
    if env.clientWidth = 0 then p.width else env.clientWidth
  else env.videoWidth

/-- The capture height after the mobile-only fallback. -/
def resolvedHeight (env : CaptureEnv) (p : Props) : Nat :=
  if (env.videoWidth = 0 ∨ env.videoHeight = 0) ∧ env.isMobile = true then
    if env.clientHeight = 0 then p.height else env.clientHeight
  else env.videoHeight

/-- The four channel bytes of one pixel, in RGBA order. -/
def pixelBytes (px : Pixel) : List Nat := [px.r, px.g, px.b, px.a]

/-- The flattened bytes of `getImageData(0, 0, sw, sh)`: rows top to bottom,
pixels left to right, four channels each. -/
def sampleData (f : Nat → Nat → Pixel) (sw sh : Nat) : List Nat :=
  (List.range sh).flatMap fun y =>
    (List.range sw).flatMap fun x => pixelBytes (f x y)

/-- The blank test of `capture` (source lines 331-334):
`data.every((channel, index) => index % 4 === 3 || channel === 0)` —
every channel is zero, the alpha channels (index 3 mod 4) exempted. -/
def isBlankData (data : List Nat) : Bool :=
  data.enum.all fun p => p.1 % 4 == 3 || p.2 == 0

/-- `capture` (source lines 259-362).  Returns the handle of the returned
canvas (its identity) together with the updated component state — the
returned canvas is `canvasRef.current` itself.  Every failure returns
`none` with no exception: thrown draw errors are caught (source lines
348-361). -/
def capture (env : CaptureEnv) (p : Props) (st : CamState) :
    Option Nat × CamState :=
  if env.videoPresent = false ∨ env.canvasPresent = false ∨ st.isActive = false then
    (none, st)
  else if captureReady env = false then
    (none, st)
  else
    let vw := resolvedWidth env p
    let vh := resolvedHeight env p
    if vw = 0 ∨ vh = 0 then (none, st)
    else if env.contextAvailable = false then (none, st)
    else
      let sized := { st with canvasW := vw, canvasH := vh }
      let cleared := { sized with canvasData := fun _ _ => ⟨0, 0, 0, 0⟩ }
      if env.drawThrows = true then (none, cleared)
      else
        let drawn := { cleared with canvasData := env.frame }
        if isBlankData (sampleData drawn.canvasData (Nat.min 10 vw) (Nat.min 10 vh)) then
          (none, drawn)
        else (some st.canvasId, drawn)

/-! ### Helper lemmas -/

/-- The catch handler always leaves `hasPermission` at `some false`. -/
theorem handleError_hasPermission (e : CamError) (st : CamState) :
    (handleError e st).hasPermission = some false := by
  unfold handleError
  split <;> rfl

/-- The catch handler always records the derived message as the error. -/
theorem handleError_error (e : CamError) (st : CamState) :
    (handleError e st).error = some (errorMessageFor e) := by
  unfold handleError
  split <;> rfl

/-- The catch handler notifies `onError` with the derived message. -/
theorem handleError_errorEvents (e : CamError) (st : CamState) :
    (handleError e st).errorEvents = st.errorEvents ++ [errorMessageFor e] := by
  unfold handleError
  split <;> rfl

/-- The catch handler does not touch `isActive`. -/
theorem handleError_isActive (e : CamError) (st : CamState) :
    (handleError e st).isActive = st.isActive := by
  unfold handleError
  split <;> rfl

/-- Anatomy of a `capture` call: it either fails with `none` or returns the
handle of the component's own canvas, resized to the resolved dimensions and
repainted with the current frame, with every precondition found to hold. -/
theorem capture_spec (env : CaptureEnv) (p : Props) (st : CamState) :
    (capture env p st).1 = none ∨
    ((capture env p st).1 = some st.canvasId ∧
     (capture env p st).2 = { st with canvasW := resolvedWidth env p
                                    , canvasH := resolvedHeight env p
                                    , canvasData := env.frame } ∧
     env.videoPresent = true ∧ env.canvasPresent = true ∧ st.isActive = true ∧
     captureReady env = true ∧
     resolvedWidth env p ≠ 0 ∧ resolvedHeight env p ≠ 0 ∧
     env.contextAvailable = true ∧ env.drawThrows = false ∧
     isBlankData (sampleData env.frame (Nat.min 10 (resolvedWidth env p))
        (Nat.min 10 (resolvedHeight env p))) = false) := by
  unfold capture
  dsimp only
  split
  · exact Or.inl rfl
  split
  · exact Or.inl rfl
  split
  · exact Or.inl rfl
  split
  · exact Or.inl rfl
  split
  · exact Or.inl rfl
  split
  · exact Or.inl rfl
  rename_i h1 h2 h3 h4 h5 h6
  push_neg at h1
  refine Or.inr ⟨rfl, rfl, ?_, ?_, ?_, ?_, ?_, ?_, ?_, ?_, ?_⟩
  · revert h1; cases env.videoPresent <;> simp
  · revert h1; cases env.canvasPresent <;> simp
  · revert h1; cases st.isActive <;> simp
  · revert h2; cases captureReady env <;> simp
  · intro hv; exact h3 (Or.inl hv)
  · intro hv; exact h3 (Or.inr hv)
  · revert h4; cases env.contextAvailable <;> simp
  · revert h5; cases env.drawThrows <;> simp
  · revert h6
    cases isBlankData (sampleData env.frame
      (Nat.min 10 (resolvedWidth env p))
      (Nat.min 10 (resolvedHeight env p))) <;> simp

/-! ### C8 — teardown -/

/-- C8: `stop_camera` is idempotent: calling it when no session exists, or
calling it twice in a row, produces no error (it is a total function with no
failure outcome), and after any such call every hardware track of the
session is stopped, the stream is detached from the video element, and the
status is inactive. -/
theorem stopCamera_idempotent :
    ∀ (vp : Bool) (st : CamState),
      (stopCamera vp st).isActive = false ∧
      (stopCamera vp st).streamRef = none ∧
      (vp = true → (stopCamera vp st).videoSrc = none) ∧
      (∀ s t, st.streamRef = some s → t ∈ s.tracks →
        t ∈ (stopCamera vp st).stoppedTracks) ∧
      (stopCamera vp (stopCamera vp st)).isActive = false ∧
      (stopCamera vp (stopCamera vp st)).streamRef = none ∧
      (vp = true → (stopCamera vp (stopCamera vp st)).videoSrc = none) ∧
      (∀ s t, st.streamRef = some s → t ∈ s.tracks →
        t ∈ (stopCamera vp (stopCamera vp st)).stoppedTracks) := by
  have hact : ∀ (vp : Bool) (st : CamState), (stopCamera vp st).isActive = false :=
    fun vp st => rfl
  have hstream : ∀ (vp : Bool) (st : CamState), (stopCamera vp st).streamRef = none := by
    intro vp st
    unfold stopCamera
    cases hs : st.streamRef <;> cases vp <;> simp [hs]
  have hvideo : ∀ st : CamState, (stopCamera true st).videoSrc = none :=
    fun st => rfl
  have htracks : ∀ (vp : Bool) (st : CamState),
      (stopCamera vp st).stoppedTracks =
        (match st.streamRef with
         | some s => st.stoppedTracks ++ s.tracks
         | none => st.stoppedTracks) := by
    intro vp st
    unfold stopCamera
    cases hs : st.streamRef <;> cases vp <;> simp [hs]
  intro vp st
  refine ⟨hact vp st, hstream vp st, ?_, ?_, hact vp _, hstream vp _, ?_, ?_⟩
  · intro hvp; subst hvp; exact hvideo st
  · intro s t hs ht
    rw [htracks, hs]
    exact List.mem_append_right _ ht
  · intro hvp; subst hvp; exact hvideo _
  · intro s t hs ht
    rw [htracks vp (stopCamera vp st), hstream vp st]
    rw [htracks, hs]
    exact List.mem_append_right _ ht

/-- An active session over a stream with two hardware tracks. -/
def sessionWithTwoTracks : CamState :=
  { initState with streamRef := some ⟨640, 480, [1, 2]⟩, isActive := true }

/-- Witness for C8 at a concrete session with two tracks. -/
theorem stopCamera_idempotent_witness :
    (stopCamera true sessionWithTwoTracks).isActive = false ∧
    (stopCamera true sessionWithTwoTracks).videoSrc = none ∧
    (2 : Nat) ∈ (stopCamera true (stopCamera true sessionWithTwoTracks)).stoppedTracks :=
  ⟨(stopCamera_idempotent true sessionWithTwoTracks).1,
   (stopCamera_idempotent true sessionWithTwoTracks).2.2.1 rfl,
   (stopCamera_idempotent true sessionWithTwoTracks).2.2.2.2.2.2.2
     ⟨640, 480, [1, 2]⟩ 2 rfl (by decide)⟩

/-! ### C9 — the returned capture buffer is the component's own canvas -/

/-- A capture environment whose frame is the constant pixel (5, 5, 5, 255). -/
def envFrameA : CaptureEnv :=
  { videoPresent := true, canvasPresent := true, isMobile := false
  , readyState := 4, readyStateAfterWait := 4
  , videoWidth := 640, videoHeight := 480, clientWidth := 320, clientHeight := 240
  , contextAvailable := true, drawThrows := false
  , frame := fun _ _ => ⟨5, 5, 5, 255⟩ }

/-- A capture environment whose frame is the constant pixel (7, 7, 7, 255). -/
def envFrameB : CaptureEnv :=
  { envFrameA with frame := fun _ _ => ⟨7, 7, 7, 255⟩ }

/-- A component state with an active session. -/
def activeState : CamState := { initState with isActive := true }

/-- C9 counterexample: the buffer returned by a successful `capture` is NOT
distinct from the component's internal state, and IS overwritten by the next
successful `capture`.  Concretely, two successive captures (frames A and B)
both return the very handle of the component's hidden canvas, and after the
second call the canvas that the first caller received holds frame B, not
frame A. -/
theorem capture_buffer_ownership_counterexample :
    (capture envFrameA defaultProps activeState).1 = some activeState.canvasId ∧
    (capture envFrameB defaultProps
        (capture envFrameA defaultProps activeState).2).1 =
      (capture envFrameA defaultProps activeState).1 ∧
    ((capture envFrameA defaultProps activeState).2.canvasData 0 0).r = 5 ∧
    ((capture envFrameB defaultProps
        (capture envFrameA defaultProps activeState).2).2.canvasData 0 0).r = 7 := by
  refine ⟨?_, ?_, rfl, rfl⟩ <;> decide

/-- C9 amended: each successful `capture` returns a handle to the
component's single internal canvas (no fresh buffer is allocated and no
ownership transfers): the returned handle is the component's canvas
identity, the canvas identity never changes, and the canvas contents after
the call are the captured frame — so a later successful capture overwrites,
in place, the buffer any earlier caller received. -/
theorem capture_returns_internal_canvas (env : CaptureEnv) (p : Props)
    (st : CamState) (h : Nat) (hs : (capture env p st).1 = some h) :
    h = st.canvasId ∧
    (capture env p st).2.canvasId = st.canvasId ∧
    (capture env p st).2.canvasData = env.frame := by
  rcases capture_spec env p st with hnone | hsucc
  · rw [hnone] at hs; cases hs
  · refine ⟨?_, ?_, ?_⟩
    · rw [hsucc.1] at hs
      exact (Option.some.inj hs).symm
    · rw [hsucc.2.1]
    · rw [hsucc.2.1]

/-- Witness for the amended C9 on the concrete frame-A environment. -/
theorem capture_returns_internal_canvas_witness :
    activeState.canvasId = activeState.canvasId ∧
    (capture envFrameA defaultProps activeState).2.canvasId = activeState.canvasId ∧
    (capture envFrameA defaultProps activeState).2.canvasData = envFrameA.frame :=
  capture_returns_internal_canvas envFrameA defaultProps activeState
    activeState.canvasId (by decide)

/-! ### C10 — the catch handler clears `hasPermission` on every failure -/

/-- C10: on every failure path of `startCamera` that reaches the catch
handler — the handler's received error `e` is arbitrary, so this includes
non-permission failures such as `NotFoundError` and `NotReadableError`
raised after the permission probe succeeded — the component returns false
and sets `hasPermission` to false. -/
theorem startCamera_handler_clears_permission (env : StartEnv) (st : CamState)
    (r : StartResult) (e : CamError)
    (hr : startCamera env st = some r) (hc : r.caught = some e) :
    r.ok = false ∧ r.state.hasPermission = some false := by
  unfold startCamera at hr
  dsimp only at hr
  split at hr
  · cases Option.some.inj hr
    cases hc
  · split at hr
    · split at hr
      · split at hr
        · cases hr
        · split at hr
          · cases Option.some.inj hr
            cases hc
          · cases Option.some.inj hr
            cases hc
            refine ⟨rfl, ?_⟩
            dsimp only
            exact handleError_hasPermission _ _
      · cases Option.some.inj hr
        cases hc
    · cases Option.some.inj hr
      cases hc
      refine ⟨rfl, ?_⟩
      dsimp only
      exact handleError_hasPermission _ _
    · cases Option.some.inj hr
      cases hc
      refine ⟨rfl, ?_⟩
      dsimp only
      exact handleError_hasPermission _ _

/-- An environment in which the probe succeeds but every candidate raises
`NotFoundError` — a non-permission failure reaching the catch handler. -/
def envAllNotFound : StartEnv :=
  { accessAvailable := true, accessError := none, isMobile := false
  , gum := fun _ => GumResult.err ⟨CamErrorName.notFound, "Requested device not found"⟩
  , videoPresent := true, waitEvents := [WEvent.loadeddata], waitReadyState := 4 }

/-- The completed run of `startCamera` in the all-`NotFoundError`
environment. -/
def resAllNotFound : StartResult :=
  (startCamera envAllNotFound initState).getD
    { ok := true, caught := none, trace := [], state := initState }

/-- Witness for C10: with every candidate raising `NotFoundError` (probe
succeeded, no permission denial anywhere), the run still ends with
`hasPermission = false`. -/
theorem startCamera_handler_clears_permission_witness :
    resAllNotFound.ok = false ∧ resAllNotFound.state.hasPermission = some false :=
  startCamera_handler_clears_permission envAllNotFound initState resAllNotFound
    ⟨CamErrorName.notFound, "Requested device not found"⟩ rfl (by decide)

/-! ### Invariants of the readiness wait -/

/-- Whether a settle action was issued by a handler that also sets the
`resolved` flag (the resolve and the load-error reject; the ultimate-timeout
reject is fired by a bare timer). -/
def finalSettle : Settle → Bool
  | Settle.resolveOk => true
  | Settle.rejectLoad => true
  | Settle.rejectTimeout => false

/-- Core invariant of the wait: listeners are registered exactly while not
resolved, and the handlers have issued exactly one resolving settle when and
only when resolved. -/
def waitInv (s : WaitState) : Prop :=
  s.listenersOn = !s.resolved ∧
  (s.settles.filter finalSettle).length = (if s.resolved then 1 else 0)

theorem waitInv_init : waitInv initWait := by
  constructor <;> rfl

theorem waitInv_onLoadedDataH (s : WaitState) (h : waitInv s) :
    waitInv (onLoadedDataH s) := by
  obtain ⟨h1, h2⟩ := h
  unfold onLoadedDataH
  split
  · exact ⟨h1, h2⟩
  · rename_i hres
    simp only [Bool.not_eq_true] at hres
    rw [hres] at h2
    simp only [Bool.false_eq_true, if_false] at h2
    refine ⟨rfl, ?_⟩
    simp [List.filter_append, finalSettle, h2]

theorem waitInv_onCanPlayH (s : WaitState) (h : waitInv s) :
    waitInv (onCanPlayH s) := by
  unfold onCanPlayH
  split
  · exact h
  · exact waitInv_onLoadedDataH s h

theorem waitInv_onErrorH (s : WaitState) (h : waitInv s) :
    waitInv (onErrorH s) := by
  obtain ⟨h1, h2⟩ := h
  unfold onErrorH
  split
  · exact ⟨h1, h2⟩
  · rename_i hres
    simp only [Bool.not_eq_true] at hres
    rw [hres] at h2
    simp only [Bool.false_eq_true, if_false] at h2
    refine ⟨rfl, ?_⟩
    simp [List.filter_append, finalSettle, h2]

theorem waitInv_step (rs : Nat) (s : WaitState) (e : WEvent)
    (h : waitInv s) : waitInv (stepWait rs s e) := by
  cases e <;> simp only [stepWait]
  · split
    · exact waitInv_onLoadedDataH s h
    · exact h
  · split
    · exact waitInv_onCanPlayH s h
    · exact h
  · split
    · exact waitInv_onErrorH s h
    · exact h
  · split
    · exact waitInv_onLoadedDataH s h
    · exact h
  · split
    · rename_i hres
      obtain ⟨h1, h2⟩ := h
      rw [hres] at h2
      simp only [Bool.false_eq_true, if_false] at h2
      refine ⟨h1, ?_⟩
      rw [hres]
      simp [List.filter_append, finalSettle, h2]
    · exact h

theorem waitInv_runWait (rs : Nat) (es : List WEvent) : waitInv (runWait rs es) := by
  unfold runWait
  have main : ∀ (l : List WEvent) (s : WaitState), waitInv s →
      waitInv (l.foldl (stepWait rs) s) := by
    intro l
    induction l with
    | nil => intro s h; exact h
    | cons e l ih => intro s h; exact ih _ (waitInv_step rs s e h)
  exact main es initWait waitInv_init

theorem onLoadedDataH_settles (s : WaitState) :
    (onLoadedDataH s).settles = s.settles ∨
    (onLoadedDataH s).settles = s.settles ++ [Settle.resolveOk] := by
  unfold onLoadedDataH
  split
  · exact Or.inl rfl
  · exact Or.inr rfl

theorem onCanPlayH_settles (s : WaitState) :
    (onCanPlayH s).settles = s.settles ∨
    (onCanPlayH s).settles = s.settles ++ [Settle.resolveOk] := by
  unfold onCanPlayH
  split
  · exact Or.inl rfl
  · exact onLoadedDataH_settles s

theorem onErrorH_settles (s : WaitState) :
    (onErrorH s).settles = s.settles ∨
    (onErrorH s).settles = s.settles ++ [Settle.rejectLoad] := by
  unfold onErrorH
  split
  · exact Or.inl rfl
  · exact Or.inr rfl

/-- Each step either leaves the settle log alone or appends exactly one
settle; a timeout reject can only come from the ultimate-timeout event. -/
theorem stepWait_settles_shape (rs : Nat) (s : WaitState) (e : WEvent) :
    (stepWait rs s e).settles = s.settles ∨
    (stepWait rs s e).settles = s.settles ++ [Settle.resolveOk] ∨
    (stepWait rs s e).settles = s.settles ++ [Settle.rejectLoad] ∨
    (e = WEvent.ultimateTimeout ∧
      (stepWait rs s e).settles = s.settles ++ [Settle.rejectTimeout]) := by
  cases e <;> simp only [stepWait]
  · split
    · rcases onLoadedDataH_settles s with h | h
      · exact Or.inl h
      · exact Or.inr (Or.inl h)
    · exact Or.inl rfl
  · split
    · rcases onCanPlayH_settles s with h | h
      · exact Or.inl h
      · exact Or.inr (Or.inl h)
    · exact Or.inl rfl
  · split
    · rcases onErrorH_settles s with h | h
      · exact Or.inl h
      · exact Or.inr (Or.inr (Or.inl h))
    · exact Or.inl rfl
  · split
    · rcases onLoadedDataH_settles s with h | h
      · exact Or.inl h
      · exact Or.inr (Or.inl h)
    · exact Or.inl rfl
  · split
    · simp
    · exact Or.inl rfl

/-- On a run without the ultimate timeout, every settle issued is a
resolving settle. -/
theorem runWait_all_final (rs : Nat) (es : List WEvent)
    (h : WEvent.ultimateTimeout ∉ es) :
    ∀ x ∈ (runWait rs es).settles, finalSettle x = true := by
  unfold runWait
  have main : ∀ (l : List WEvent) (s : WaitState),
      WEvent.ultimateTimeout ∉ l →
      (∀ x ∈ s.settles, finalSettle x = true) →
      ∀ x ∈ (l.foldl (stepWait rs) s).settles, finalSettle x = true := by
    intro l
    induction l with
    | nil => intro s _ hq; exact hq
    | cons e l ih =>
        intro s hmem hq
        have he : e ≠ WEvent.ultimateTimeout := fun hcon =>
          hmem (by rw [hcon]; exact List.mem_cons_self _ _)
        have hmem2 : WEvent.ultimateTimeout ∉ l := fun hc =>
          hmem (List.mem_cons_of_mem _ hc)
        refine ih (stepWait rs s e) hmem2 ?_
        rcases stepWait_settles_shape rs s e with hsh | hsh | hsh | ⟨heq, _⟩
        · rw [hsh]; exact hq
        · rw [hsh]
          intro x hx
          rcases List.mem_append.1 hx with hx | hx
          · exact hq x hx
          · rw [List.mem_singleton.1 hx]; rfl
        · rw [hsh]
          intro x hx
          rcases List.mem_append.1 hx with hx | hx
          · exact hq x hx
          · rw [List.mem_singleton.1 hx]; rfl
        · exact absurd heq he
  exact main es initWait h (by intro x hx; cases hx)

theorem stepWait_settles_ne_nil (rs : Nat) (s : WaitState) (e : WEvent)
    (h : s.settles ≠ []) : (stepWait rs s e).settles ≠ [] := by
  rcases stepWait_settles_shape rs s e with hsh | hsh | hsh | ⟨_, hsh⟩ <;>
    rw [hsh] <;> simp_all

/-- If the ultimate timeout fires during a run, the run ends settled: the
readiness wait terminates. -/
theorem runWait_settles_ne_nil_of_ultimate (rs : Nat) (es : List WEvent)
    (h : WEvent.ultimateTimeout ∈ es) : (runWait rs es).settles ≠ [] := by
  unfold runWait
  have main : ∀ (l : List WEvent) (s : WaitState), waitInv s →
      (WEvent.ultimateTimeout ∈ l ∨ s.settles ≠ []) →
      (l.foldl (stepWait rs) s).settles ≠ [] := by
    intro l
    induction l with
    | nil =>
        intro s _ hd
        rcases hd with hd | hd
        · cases hd
        · exact hd
    | cons e l ih =>
        intro s hinv hd
        refine ih (stepWait rs s e) (waitInv_step rs s e hinv) ?_
        by_cases hne : s.settles = []
        · rcases hd with hd | hd
          · rcases List.mem_cons.1 hd with heq | hd2
            · right
              have hres : s.resolved = false := by
                rcases hinv with ⟨h1, h2⟩
                cases hr2 : s.resolved
                · rfl
                · rw [hr2, hne] at h2; simp at h2
              rw [← heq]
              simp [stepWait, hres, hne]
            · left; exact hd2
          · exact absurd hne (by simp [hd])
        · right; exact stepWait_settles_ne_nil rs s e hne
  exact main es initWait waitInv_init (Or.inl h)

/-! ### C3 — single resolution of the readiness wait -/

/-- C3: for every start attempt, the readiness wait resolves at most once
even when multiple readiness signals fire.  On any run: at most one resolve
is ever issued, and whenever a resolve has been issued all event listeners
are deregistered; on any run of the readiness signals and the video error
event (no ultimate timeout), at most one settle of any kind is issued, and
the first settle deregisters all listeners. -/
theorem readiness_wait_resolves_at_most_once :
    ∀ (rs : Nat) (es : List WEvent),
      ((runWait rs es).settles.count Settle.resolveOk ≤ 1) ∧
      (Settle.resolveOk ∈ (runWait rs es).settles →
        (runWait rs es).listenersOn = false) ∧
      (WEvent.ultimateTimeout ∉ es →
        (runWait rs es).settles.length ≤ 1 ∧
        ((runWait rs es).settles ≠ [] → (runWait rs es).listenersOn = false)) := by
  intro rs es
  obtain ⟨hinv1, hinv2⟩ := waitInv_runWait rs es
  have hresolved_of_final :
      0 < ((runWait rs es).settles.filter finalSettle).length →
      (runWait rs es).resolved = true := by
    intro hpos
    cases hres : (runWait rs es).resolved
    · rw [hres] at hinv2
      simp only [Bool.false_eq_true, if_false] at hinv2
      rw [hinv2] at hpos
      exact absurd hpos (by simp)
    · rfl
  refine ⟨?_, ?_, ?_⟩
  · have hle : (runWait rs es).settles.count Settle.resolveOk ≤
        ((runWait rs es).settles.filter finalSettle).length := by
      rw [List.count, ← List.countP_eq_length_filter]
      refine List.countP_mono_left ?_
      intro a _ hb
      rw [eq_of_beq hb]
      rfl
    refine hle.trans ?_
    rw [hinv2]
    split <;> omega
  · intro hm
    have hpos : 0 < ((runWait rs es).settles.filter finalSettle).length := by
      have : Settle.resolveOk ∈ (runWait rs es).settles.filter finalSettle :=
        List.mem_filter.2 ⟨hm, rfl⟩
      exact List.length_pos.2 (fun hnil => by rw [hnil] at this; cases this)
    rw [hinv1, hresolved_of_final hpos]
    rfl
  · intro hnu
    have hall := runWait_all_final rs es hnu
    have hfil : (runWait rs es).settles.filter finalSettle = (runWait rs es).settles :=
      List.filter_eq_self.2 hall
    constructor
    · rw [← hfil, hinv2]
      split <;> omega
    · intro hne
      have hpos : 0 < ((runWait rs es).settles.filter finalSettle).length := by
        rw [hfil]
        exact List.length_pos.2 hne
      rw [hinv1, hresolved_of_final hpos]
      rfl

/-- Witness for C3: all three readiness signals fire in one run; exactly one
resolve is issued and the listeners end deregistered. -/
theorem readiness_wait_resolves_at_most_once_witness :
    (runWait 4 [WEvent.loadeddata, WEvent.canplay,
        WEvent.shortTimeout]).settles.length ≤ 1 ∧
    (runWait 4 [WEvent.loadeddata, WEvent.canplay,
        WEvent.shortTimeout]).listenersOn = false :=
  ⟨((readiness_wait_resolves_at_most_once 4
      [WEvent.loadeddata, WEvent.canplay, WEvent.shortTimeout]).2.2 (by decide)).1,
   ((readiness_wait_resolves_at_most_once 4
      [WEvent.loadeddata, WEvent.canplay, WEvent.shortTimeout]).2.2 (by decide)).2
     (by decide)⟩

/-! ### C4 — the readiness wait terminates within the ultimate budget -/

/-- C4: the readiness wait always terminates.  The ultimate timeout budget
is 8000 ms on mobile and 5000 ms otherwise; the shorter fallback declares
success when the decoding-readiness counter already meets the threshold
(readyState at least 2); once the ultimate timeout fires, the wait is
settled; and a run of `startCamera` whose readiness promise settles first
with the ultimate-timeout rejection returns false. -/
theorem readiness_wait_terminates :
    (ultimateTimeoutMs true = 8000 ∧ ultimateTimeoutMs false = 5000) ∧
    (∀ (rs : Nat) (s : WaitState), s.resolved = false → 2 ≤ rs →
      (stepWait rs s WEvent.shortTimeout).settles =
        s.settles ++ [Settle.resolveOk]) ∧
    (∀ (rs : Nat) (es : List WEvent), WEvent.ultimateTimeout ∈ es →
      (runWait rs es).settles ≠ []) ∧
    (∀ (env : StartEnv) (st : CamState) (r : StartResult),
      startCamera env st = some r →
      waitSettle env = some Settle.rejectTimeout → r.ok = false) := by
  refine ⟨⟨rfl, rfl⟩, ?_, runWait_settles_ne_nil_of_ultimate, ?_⟩
  · intro rs s hres hrs
    simp only [stepWait, hres, hrs, and_self, if_true]
    unfold onLoadedDataH
    rw [hres]
    simp
  · intro env st r hr hw
    unfold startCamera at hr
    dsimp only at hr
    split at hr
    · cases Option.some.inj hr; rfl
    · split at hr
      · split at hr
        · split at hr
          · cases hr
          · rename_i stl hstl
            rw [hw] at hstl
            cases Option.some.inj hstl
            split at hr
            · rename_i hse
              simp [settleError] at hse
            · cases Option.some.inj hr; rfl
        · cases Option.some.inj hr; rfl
      · cases Option.some.inj hr; rfl
      · cases Option.some.inj hr; rfl

/-- A run on mobile where the stream is acquired but the video never signals
readiness: only the ultimate timeout fires. -/
def envUltimateTimeout : StartEnv :=
  { accessAvailable := true, accessError := none, isMobile := true
  , gum := fun _ => GumResult.ok ⟨640, 480, [1]⟩
  , videoPresent := true, waitEvents := [WEvent.ultimateTimeout]
  , waitReadyState := 0 }

/-- The completed run of `startCamera` in the ultimate-timeout environment. -/
def resUltimateTimeout : StartResult :=
  (startCamera envUltimateTimeout initState).getD
    { ok := true, caught := none, trace := [], state := initState }

/-- Witness for C4: the mobile budget is 8000 ms, the ultimate timeout
settles an otherwise signal-free run, and that run of `startCamera` returns
false. -/
theorem readiness_wait_terminates_witness :
    ultimateTimeoutMs true = 8000 ∧
    (runWait 0 [WEvent.ultimateTimeout]).settles ≠ [] ∧
    resUltimateTimeout.ok = false :=
  ⟨readiness_wait_terminates.1.1,
   readiness_wait_terminates.2.2.1 0 [WEvent.ultimateTimeout] (by decide),
   readiness_wait_terminates.2.2.2 envUltimateTimeout initState
     resUltimateTimeout rfl (by decide)⟩

/-! ### Lemmas about the constraint ladder -/

theorem ladderFrom_cons_ok (gum : Nat → GumResult) (le : Option CamError)
    (i : Nat) (rest : List Nat) (s : Stream) (h : gum i = GumResult.ok s) :
    ladderFrom gum le (i :: rest) = ([i], LadderOutcome.success i s) := by
  simp [ladderFrom, h]

theorem ladderFrom_cons_null (gum : Nat → GumResult) (le : Option CamError)
    (i : Nat) (rest : List Nat) (h : gum i = GumResult.nullStream) :
    ladderFrom gum le (i :: rest) =
      (i :: (ladderFrom gum le rest).1, (ladderFrom gum le rest).2) := by
  simp [ladderFrom, h]

theorem ladderFrom_cons_notAllowed (gum : Nat → GumResult) (le : Option CamError)
    (i : Nat) (rest : List Nat) (e : CamError) (h : gum i = GumResult.err e)
    (hn : e.name = CamErrorName.notAllowed) :
    ladderFrom gum le (i :: rest) = ([i], LadderOutcome.thrown e) := by
  simp [ladderFrom, h, hn]

theorem ladderFrom_cons_err (gum : Nat → GumResult) (le : Option CamError)
    (i : Nat) (rest : List Nat) (e : CamError) (h : gum i = GumResult.err e)
    (hn : e.name ≠ CamErrorName.notAllowed) :
    ladderFrom gum le (i :: rest) =
      (i :: (ladderFrom gum (some e) rest).1, (ladderFrom gum (some e) rest).2) := by
  simp [ladderFrom, h, hn]

/-- The attempted indices are an initial segment of the candidate index
list: candidates are tried strictly in the listed priority order with no
skipping and no reordering. -/
theorem ladderFrom_trace_initial (gum : Nat → GumResult) :
    ∀ (le : Option CamError) (l : List Nat),
      ∃ l2, l = (ladderFrom gum le l).1 ++ l2 := by
  intro le l
  induction l generalizing le with
  | nil => exact ⟨[], rfl⟩
  | cons i rest ih =>
      rcases hg : gum i with s | _ | e
      · rw [ladderFrom_cons_ok gum le i rest s hg]
        exact ⟨rest, rfl⟩
      · obtain ⟨l2, hl2⟩ := ih le
        rw [ladderFrom_cons_null gum le i rest hg]
        exact ⟨l2, by rw [List.cons_append, ← hl2]⟩
      · by_cases hn : e.name = CamErrorName.notAllowed
        · rw [ladderFrom_cons_notAllowed gum le i rest e hg hn]
          exact ⟨rest, rfl⟩
        · obtain ⟨l2, hl2⟩ := ih (some e)
          rw [ladderFrom_cons_err gum le i rest e hg hn]
          exact ⟨l2, by rw [List.cons_append, ← hl2]⟩

/-- If an attempted candidate yields a live stream, it is the last
candidate attempted: nothing is tried after a success. -/
theorem ladderFrom_success_last (gum : Nat → GumResult) :
    ∀ (le : Option CamError) (l : List Nat) (i : Nat) (s : Stream),
      i ∈ (ladderFrom gum le l).1 → gum i = GumResult.ok s →
      ∃ pre, (ladderFrom gum le l).1 = pre ++ [i] := by
  intro le l
  induction l generalizing le with
  | nil => intro i s hi _; cases hi
  | cons j rest ih =>
      intro i s hi hg
      rcases hgj : gum j with s2 | _ | e
      · rw [ladderFrom_cons_ok gum le j rest s2 hgj] at hi ⊢
        rcases List.mem_singleton.1 hi with rfl
        exact ⟨[], rfl⟩
      · rw [ladderFrom_cons_null gum le j rest hgj] at hi ⊢
        rcases List.mem_cons.1 hi with rfl | hi2
        · rw [hgj] at hg; cases hg
        · obtain ⟨pre, hp⟩ := ih le i s hi2 hg
          exact ⟨j :: pre, by rw [hp, List.cons_append]⟩
      · by_cases hn : e.name = CamErrorName.notAllowed
        · rw [ladderFrom_cons_notAllowed gum le j rest e hgj hn] at hi ⊢
          rcases List.mem_singleton.1 hi with rfl
          rw [hgj] at hg; cases hg
        · rw [ladderFrom_cons_err gum le j rest e hgj hn] at hi ⊢
          rcases List.mem_cons.1 hi with rfl | hi2
          · rw [hgj] at hg; cases hg
          · obtain ⟨pre, hp⟩ := ih (some e) i s hi2 hg
            exact ⟨j :: pre, by rw [hp, List.cons_append]⟩

/-- If every candidate before `i` fails without a permission denial and
candidate `i` yields a stream, the ladder attempts exactly the candidates up
to and including `i` and succeeds there. -/
theorem ladderFrom_first_ok (gum : Nat → GumResult) :
    ∀ (l1 : List Nat) (le : Option CamError) (i : Nat) (l2 : List Nat) (s : Stream),
      gum i = GumResult.ok s →
      (∀ j ∈ l1, gumOk (gum j) = false ∧ gumNotAllowed (gum j) = false) →
      ladderFrom gum le (l1 ++ i :: l2) = (l1 ++ [i], LadderOutcome.success i s) := by
  intro l1
  induction l1 with
  | nil =>
      intro le i l2 s hg _
      rw [List.nil_append, ladderFrom_cons_ok gum le i l2 s hg]
      rfl
  | cons j l1 ih =>
      intro le i l2 s hg hfail
      obtain ⟨hok, hna⟩ := hfail j (List.mem_cons_self _ _)
      have hrest : ∀ k ∈ l1, gumOk (gum k) = false ∧ gumNotAllowed (gum k) = false :=
        fun k hk => hfail k (List.mem_cons_of_mem _ hk)
      rcases hgj : gum j with s2 | _ | e
      · rw [hgj] at hok; cases hok
      · rw [List.cons_append, ladderFrom_cons_null gum le j _ hgj,
          ih le i l2 s hg hrest]
        rfl
      · have hn : e.name ≠ CamErrorName.notAllowed := by
          intro hcon
          rw [hgj] at hna
          simp [gumNotAllowed, hcon] at hna
        rw [List.cons_append, ladderFrom_cons_err gum le j _ e hgj hn,
          ih (some e) i l2 s hg hrest]
        rfl

/-- If every candidate before `i` fails without a permission denial and
candidate `i` raises a permission denial, the ladder attempts exactly the
candidates up to and including `i` and rethrows the denial: no further
candidate is tried. -/
theorem ladderFrom_first_notAllowed (gum : Nat → GumResult) :
    ∀ (l1 : List Nat) (le : Option CamError) (i : Nat) (l2 : List Nat) (e : CamError),
      gum i = GumResult.err e → e.name = CamErrorName.notAllowed →
      (∀ j ∈ l1, gumOk (gum j) = false ∧ gumNotAllowed (gum j) = false) →
      ladderFrom gum le (l1 ++ i :: l2) = (l1 ++ [i], LadderOutcome.thrown e) := by
  intro l1
  induction l1 with
  | nil =>
      intro le i l2 e hg hn _
      rw [List.nil_append, ladderFrom_cons_notAllowed gum le i l2 e hg hn]
      rfl
  | cons j l1 ih =>
      intro le i l2 e hg hn hfail
      obtain ⟨hok, hna⟩ := hfail j (List.mem_cons_self _ _)
      have hrest : ∀ k ∈ l1, gumOk (gum k) = false ∧ gumNotAllowed (gum k) = false :=
        fun k hk => hfail k (List.mem_cons_of_mem _ hk)
      rcases hgj : gum j with s2 | _ | e2
      · rw [hgj] at hok; cases hok
      · rw [List.cons_append, ladderFrom_cons_null gum le j _ hgj,
          ih le i l2 e hg hn hrest]
        rfl
      · have hn2 : e2.name ≠ CamErrorName.notAllowed := by
          intro hcon
          rw [hgj] at hna
          simp [gumNotAllowed, hcon] at hna
        rw [List.cons_append, ladderFrom_cons_err gum le j _ e2 hgj hn2,
          ih (some e2) i l2 e hg hn hrest]
        rfl

/-- When all four candidates raise non-permission errors, the ladder
attempts all of them and exhausts with the error of the last candidate. -/
theorem ladderFrom_all_err (gum : Nat → GumResult) (e0 e1 e2 e3 : CamError)
    (h0 : gum 0 = GumResult.err e0) (h1 : gum 1 = GumResult.err e1)
    (h2 : gum 2 = GumResult.err e2) (h3 : gum 3 = GumResult.err e3)
    (hn0 : e0.name ≠ CamErrorName.notAllowed)
    (hn1 : e1.name ≠ CamErrorName.notAllowed)
    (hn2 : e2.name ≠ CamErrorName.notAllowed)
    (hn3 : e3.name ≠ CamErrorName.notAllowed) :
    ladderFrom gum none [0, 1, 2, 3] =
      ([0, 1, 2, 3], LadderOutcome.exhausted (some e3)) := by
  rw [ladderFrom_cons_err gum none 0 [1, 2, 3] e0 h0 hn0,
    ladderFrom_cons_err gum (some e0) 1 [2, 3] e1 h1 hn1,
    ladderFrom_cons_err gum (some e1) 2 [3] e2 h2 hn2,
    ladderFrom_cons_err gum (some e2) 3 [] e3 h3 hn3]
  rfl

/-- On any completed run with the permission probe succeeding, the attempted
candidate indices are exactly what the ladder attempted. -/
theorem startCamera_trace (env : StartEnv) (st : CamState) (r : StartResult)
    (hacc : env.accessAvailable = true)
    (hr : startCamera env st = some r) :
    r.trace = (ladderFrom env.gum none
      (List.range (constraintOptions env.isMobile).length)).1 := by
  unfold startCamera at hr
  dsimp only at hr
  split at hr
  · rename_i hfalse
    rw [hacc] at hfalse
    cases hfalse
  · split at hr
    · split at hr
      · split at hr
        · cases hr
        · split at hr
          · cases Option.some.inj hr; rfl
          · cases Option.some.inj hr; rfl
      · cases Option.some.inj hr; rfl
    · cases Option.some.inj hr; rfl
    · cases Option.some.inj hr; rfl

/-- On a run whose ladder rethrows an error, `startCamera` returns false and
surfaces the message derived from that error, with `hasPermission` false. -/
theorem startCamera_thrown_state (env : StartEnv) (st : CamState)
    (r : StartResult) (e : CamError)
    (hacc : env.accessAvailable = true)
    (hr : startCamera env st = some r)
    (hth : (ladderFrom env.gum none
      (List.range (constraintOptions env.isMobile).length)).2
        = LadderOutcome.thrown e) :
    r.ok = false ∧ r.state.error = some (errorMessageFor e) ∧
    r.state.errorEvents = st.errorEvents ++ [errorMessageFor e] ∧
    r.state.hasPermission = some false := by
  unfold startCamera at hr
  dsimp only at hr
  split at hr
  · rename_i hfalse
    rw [hacc] at hfalse
    cases hfalse
  · split at hr
    · rename_i i s heq
      rw [hth] at heq
      cases heq
    · rename_i e2 heq
      rw [hth] at heq
      cases heq
      cases Option.some.inj hr
      refine ⟨rfl, ?_, ?_, ?_⟩
      · dsimp only
        exact handleError_error _ _
      · dsimp only
        exact handleError_errorEvents _ _
      · dsimp only
        exact handleError_hasPermission _ _
    · rename_i le heq
      rw [hth] at heq
      cases heq

/-- On a run whose ladder exhausts all candidates with a recorded last
error, `startCamera` returns false and surfaces the message derived from
that last error, with `hasPermission` false. -/
theorem startCamera_exhausted_state (env : StartEnv) (st : CamState)
    (r : StartResult) (e : CamError)
    (hacc : env.accessAvailable = true)
    (hr : startCamera env st = some r)
    (hex : (ladderFrom env.gum none
      (List.range (constraintOptions env.isMobile).length)).2
        = LadderOutcome.exhausted (some e)) :
    r.ok = false ∧ r.state.error = some (errorMessageFor e) ∧
    r.state.errorEvents = st.errorEvents ++ [errorMessageFor e] ∧
    r.state.hasPermission = some false := by
  unfold startCamera at hr
  dsimp only at hr
  split at hr
  · rename_i hfalse
    rw [hacc] at hfalse
    cases hfalse
  · split at hr
    · rename_i i s heq
      rw [hex] at heq
      cases heq
    · rename_i e2 heq
      rw [hex] at heq
      cases heq
    · rename_i le heq
      rw [hex] at heq
      cases heq
      cases Option.some.inj hr
      refine ⟨rfl, ?_, ?_, ?_⟩
      · dsimp only
        exact handleError_error _ _
      · dsimp only
        exact handleError_errorEvents _ _
      · dsimp only
        exact handleError_hasPermission _ _

/-! ### C1 — candidates are tried in priority order, stopping at success -/

/-- C1: on every completed run of `startCamera` whose permission probe
succeeds, the attempted candidate indices form an initial segment of the
priority list (strict priority order, no skips); any attempted candidate
that yields a live stream is the last one attempted (no further candidates
after a success); and when the first live-stream candidate is `i` with all
earlier candidates failing non-permission, exactly candidates `0..i` are
attempted. -/
theorem startCamera_candidates_priority_order (env : StartEnv) (st : CamState)
    (r : StartResult)
    (hacc : env.accessAvailable = true)
    (hr : startCamera env st = some r) :
    (∃ l2, List.range (constraintOptions env.isMobile).length = r.trace ++ l2) ∧
    (∀ i s, i ∈ r.trace → env.gum i = GumResult.ok s →
      ∃ pre, r.trace = pre ++ [i]) ∧
    (∀ i s, i < (constraintOptions env.isMobile).length →
      env.gum i = GumResult.ok s →
      (∀ j, j < i → gumOk (env.gum j) = false ∧ gumNotAllowed (env.gum j) = false) →
      r.trace = List.range (i + 1)) := by
  have htr := startCamera_trace env st r hacc hr
  refine ⟨?_, ?_, ?_⟩
  · rw [htr]
    exact ladderFrom_trace_initial env.gum none _
  · intro i s hi hg
    rw [htr] at hi ⊢
    exact ladderFrom_success_last env.gum none _ i s hi hg
  · intro i s hi hg hprev
    have h4 : (constraintOptions env.isMobile).length = 4 := rfl
    rw [h4] at hi
    rw [htr, h4]
    interval_cases i
    · have hsplit : List.range 4 = List.range 0 ++ 0 :: [1, 2, 3] := rfl
      rw [hsplit, ladderFrom_first_ok env.gum (List.range 0) none 0 [1, 2, 3] s hg
        (fun j hj => hprev j (List.mem_range.1 hj))]
      rfl
    · have hsplit : List.range 4 = List.range 1 ++ 1 :: [2, 3] := rfl
      rw [hsplit, ladderFrom_first_ok env.gum (List.range 1) none 1 [2, 3] s hg
        (fun j hj => hprev j (List.mem_range.1 hj))]
      rfl
    · have hsplit : List.range 4 = List.range 2 ++ 2 :: [3] := rfl
      rw [hsplit, ladderFrom_first_ok env.gum (List.range 2) none 2 [3] s hg
        (fun j hj => hprev j (List.mem_range.1 hj))]
      rfl
    · have hsplit : List.range 4 = List.range 3 ++ 3 :: [] := rfl
      rw [hsplit, ladderFrom_first_ok env.gum (List.range 3) none 3 [] s hg
        (fun j hj => hprev j (List.mem_range.1 hj))]

/-- An environment where candidates 0 and 1 fail non-permission and
candidate 2 yields a 640 × 480 stream. -/
def envThirdSucceeds : StartEnv :=
  { accessAvailable := true, accessError := none, isMobile := false
  , gum := fun i =>
      if i < 2 then GumResult.err ⟨CamErrorName.notFound, "Requested device not found"⟩
      else GumResult.ok ⟨640, 480, [1]⟩
  , videoPresent := true, waitEvents := [WEvent.loadeddata]
  , waitReadyState := 4 }

/-- The completed run of `startCamera` in the third-candidate environment. -/
def resThirdSucceeds : StartResult :=
  (startCamera envThirdSucceeds initState).getD
    { ok := false, caught := none, trace := [], state := initState }

/-- Witness for C1: with the first two candidates failing and the third
succeeding, exactly candidates 0, 1, 2 are attempted, in order. -/
theorem startCamera_candidates_priority_order_witness :
    (∃ l2, List.range 4 = resThirdSucceeds.trace ++ l2) ∧
    (∃ pre, resThirdSucceeds.trace = pre ++ [2]) ∧
    resThirdSucceeds.trace = List.range 3 :=
  ⟨(startCamera_candidates_priority_order envThirdSucceeds initState
      resThirdSucceeds rfl rfl).1,
   (startCamera_candidates_priority_order envThirdSucceeds initState
      resThirdSucceeds rfl rfl).2.1 2 ⟨640, 480, [1]⟩ (by decide) (by decide),
   (startCamera_candidates_priority_order envThirdSucceeds initState
      resThirdSucceeds rfl rfl).2.2 2 ⟨640, 480, [1]⟩ (by decide) (by decide)
      (by decide)⟩

/-! ### C2 — permission denials short-circuit; otherwise the last failure
is surfaced -/

/-- C2: on every completed run of `startCamera` whose permission probe
succeeds: if the first candidate raising a permission denial is `i` (all
earlier candidates failing non-permission), the ladder aborts right after
attempting `i` — candidates after `i` are never tried — the run returns
false, and the permission-denied message is surfaced with `hasPermission`
false; if instead all four candidates raise non-permission errors, the run
returns false and surfaces the category message of the last failure. -/
theorem startCamera_failure_surfacing (env : StartEnv) (st : CamState)
    (r : StartResult)
    (hacc : env.accessAvailable = true)
    (hr : startCamera env st = some r) :
    (∀ i e, i < (constraintOptions env.isMobile).length →
      env.gum i = GumResult.err e → e.name = CamErrorName.notAllowed →
      (∀ j, j < i → gumOk (env.gum j) = false ∧ gumNotAllowed (env.gum j) = false) →
      r.trace = List.range (i + 1) ∧ r.ok = false ∧
      r.state.error =
        some "Camera access denied. Please allow camera permissions and try again." ∧
      r.state.errorEvents = st.errorEvents ++
        ["Camera access denied. Please allow camera permissions and try again."] ∧
      r.state.hasPermission = some false) ∧
    (∀ e0 e1 e2 e3,
      env.gum 0 = GumResult.err e0 → env.gum 1 = GumResult.err e1 →
      env.gum 2 = GumResult.err e2 → env.gum 3 = GumResult.err e3 →
      e0.name ≠ CamErrorName.notAllowed → e1.name ≠ CamErrorName.notAllowed →
      e2.name ≠ CamErrorName.notAllowed → e3.name ≠ CamErrorName.notAllowed →
      r.trace = [0, 1, 2, 3] ∧ r.ok = false ∧
      r.state.error = some (errorMessageFor e3) ∧
      r.state.errorEvents = st.errorEvents ++ [errorMessageFor e3] ∧
      r.state.hasPermission = some false) := by
  have htr := startCamera_trace env st r hacc hr
  have h4 : (constraintOptions env.isMobile).length = 4 := rfl
  constructor
  · intro i e hi hg hn hprev
    rw [h4] at hi
    have hmsg : errorMessageFor e =
        "Camera access denied. Please allow camera permissions and try again." := by
      unfold errorMessageFor
      rw [hn]
    have hfail : ∀ j ∈ List.range i, gumOk (env.gum j) = false ∧
        gumNotAllowed (env.gum j) = false :=
      fun j hj => hprev j (List.mem_range.1 hj)
    have hladder : ladderFrom env.gum none
        (List.range (constraintOptions env.isMobile).length) =
          (List.range i ++ [i], LadderOutcome.thrown e) := by
      rw [h4]
      interval_cases i
      · exact ladderFrom_first_notAllowed env.gum (List.range 0) none 0 [1, 2, 3]
          e hg hn hfail
      · exact ladderFrom_first_notAllowed env.gum (List.range 1) none 1 [2, 3]
          e hg hn hfail
      · exact ladderFrom_first_notAllowed env.gum (List.range 2) none 2 [3]
          e hg hn hfail
      · exact ladderFrom_first_notAllowed env.gum (List.range 3) none 3 []
          e hg hn hfail
    have hst := startCamera_thrown_state env st r e hacc hr
      (by rw [hladder])
    refine ⟨?_, hst.1, ?_, ?_, hst.2.2.2⟩
    · rw [htr, hladder]
      rw [List.range_succ]
    · rw [hst.2.1, hmsg]
    · rw [hst.2.2.1, hmsg]
  · intro e0 e1 e2 e3 h0 h1 h2 h3 hn0 hn1 hn2 hn3
    have hladder : ladderFrom env.gum none
        (List.range (constraintOptions env.isMobile).length) =
          ([0, 1, 2, 3], LadderOutcome.exhausted (some e3)) := by
      rw [h4]
      exact ladderFrom_all_err env.gum e0 e1 e2 e3 h0 h1 h2 h3 hn0 hn1 hn2 hn3
    have hst := startCamera_exhausted_state env st r e3 hacc hr
      (by rw [hladder])
    exact ⟨by rw [htr, hladder], hst.1, hst.2.1, hst.2.2.1, hst.2.2.2⟩

/-- An environment where candidate 0 fails with `NotReadableError` and
candidate 1 raises the permission denial. -/
def envDeniedSecond : StartEnv :=
  { accessAvailable := true, accessError := none, isMobile := false
  , gum := fun i =>
      if i = 0 then GumResult.err ⟨CamErrorName.notReadable, "Device in use"⟩
      else GumResult.err ⟨CamErrorName.notAllowed, "Permission denied"⟩
  , videoPresent := true, waitEvents := [WEvent.loadeddata]
  , waitReadyState := 4 }

/-- The completed run of `startCamera` in the denial environment. -/
def resDeniedSecond : StartResult :=
  (startCamera envDeniedSecond initState).getD
    { ok := true, caught := none, trace := [], state := initState }

/-- Witness for C2: candidate 1 raises the denial, so only candidates 0 and
1 are attempted, the run fails, and the permission message is surfaced. -/
theorem startCamera_failure_surfacing_witness :
    resDeniedSecond.trace = List.range 2 ∧
    resDeniedSecond.ok = false ∧
    resDeniedSecond.state.error =
      some "Camera access denied. Please allow camera permissions and try again." ∧
    resDeniedSecond.state.hasPermission = some false := by
  have h := (startCamera_failure_surfacing envDeniedSecond initState
    resDeniedSecond rfl rfl).1 1 ⟨CamErrorName.notAllowed, "Permission denied"⟩
    (by decide) (by decide) rfl (by decide)
  exact ⟨h.1, h.2.1, h.2.2.1, h.2.2.2.2⟩

/-! ### The blank-frame sample -/

/-- The pixels of the sampled block, rows top to bottom. -/
def samplePixels (f : Nat → Nat → Pixel) (sw sh : Nat) : List Pixel :=
  (List.range sh).flatMap fun y => (List.range sw).map fun x => f x y

theorem sampleData_eq_flatMap (f : Nat → Nat → Pixel) (sw sh : Nat) :
    sampleData f sw sh = (samplePixels f sw sh).flatMap pixelBytes := by
  unfold sampleData samplePixels
  rw [List.flatMap_assoc]
  refine List.flatMap_congr ?_
  intro y _
  rw [List.flatMap_map]

/-- Over channel data laid out in 4-byte pixels starting at a 4-aligned
index, the `index % 4 == 3 || channel == 0` test over all channels is the
all-RGB-zero test over all pixels. -/
theorem blank_flatMap_pixelBytes (ps : List Pixel) :
    ∀ (k : Nat), k % 4 = 0 →
      (((ps.flatMap pixelBytes).enumFrom k).all
          fun q => q.1 % 4 == 3 || q.2 == 0) =
        ps.all fun px => px.r == 0 && (px.g == 0 && px.b == 0) := by
  induction ps with
  | nil => intro k _; rfl
  | cons px ps ih =>
      intro k hk
      have m1 : (k + 1) % 4 = 1 := by omega
      have m2 : (k + 2) % 4 = 2 := by omega
      have m3 : (k + 3) % 4 = 3 := by omega
      rw [List.flatMap_cons, List.enumFrom_append, List.all_append]
      have hlen : (pixelBytes px).length = 4 := rfl
      rw [hlen, ih (k + 4) (by omega)]
      simp only [pixelBytes, List.enumFrom_cons, List.enumFrom_nil, List.all_cons,
        List.all_nil, hk, m1, m2, m3]
      simp [Bool.and_assoc]

/-- The blank test of `capture` holds exactly when every sampled pixel has
all three color channels zero — the alpha channel is ignored. -/
theorem isBlankData_sample_iff (f : Nat → Nat → Pixel) (sw sh : Nat) :
    isBlankData (sampleData f sw sh) = true ↔
      ∀ x y, x < sw → y < sh →
        (f x y).r = 0 ∧ (f x y).g = 0 ∧ (f x y).b = 0 := by
  unfold isBlankData
  rw [List.enum_eq_enumFrom, sampleData_eq_flatMap,
    blank_flatMap_pixelBytes (samplePixels f sw sh) 0 rfl, List.all_eq_true]
  constructor
  · intro h x y hx hy
    have hmem : f x y ∈ samplePixels f sw sh := by
      unfold samplePixels
      exact List.mem_flatMap.2 ⟨y, List.mem_range.2 hy,
        List.mem_map.2 ⟨x, List.mem_range.2 hx, rfl⟩⟩
    have hb := h _ hmem
    simp only [Bool.and_eq_true, beq_iff_eq] at hb
    exact ⟨hb.1, hb.2.1, hb.2.2⟩
  · intro h px hmem
    unfold samplePixels at hmem
    obtain ⟨y, hy, hmem2⟩ := List.mem_flatMap.1 hmem
    obtain ⟨x, hx, rfl⟩ := List.mem_map.1 hmem2
    have hb := h x y (List.mem_range.1 hx) (List.mem_range.1 hy)
    simp only [Bool.and_eq_true, beq_iff_eq]
    exact ⟨hb.1, hb.2.1, hb.2.2⟩

/-! ### C5 — the blank-frame heuristic -/

/-- C5: on a capture whose preconditions hold and whose draw succeeds,
`capture` returns none exactly when every color channel of the sampled
top-left block (at most 10 × 10 pixels) is zero, the alpha channels being
ignored; in particular a fully black (all-zero RGB) frame makes `capture`
return none. -/
theorem capture_blank_frame_heuristic (env : CaptureEnv) (p : Props)
    (st : CamState)
    (hv : env.videoPresent = true) (hc : env.canvasPresent = true)
    (ha : st.isActive = true) (hready : captureReady env = true)
    (hw : env.videoWidth ≠ 0) (hh : env.videoHeight ≠ 0)
    (hctx : env.contextAvailable = true) (hdraw : env.drawThrows = false) :
    ((capture env p st).1 = none ↔
      ∀ x y, x < Nat.min 10 env.videoWidth → y < Nat.min 10 env.videoHeight →
        (env.frame x y).r = 0 ∧ (env.frame x y).g = 0 ∧ (env.frame x y).b = 0) ∧
    ((∀ x y, (env.frame x y).r = 0 ∧ (env.frame x y).g = 0 ∧
        (env.frame x y).b = 0) →
      (capture env p st).1 = none) := by
  have hrw : resolvedWidth env p = env.videoWidth := by
    unfold resolvedWidth
    rw [if_neg]
    rintro ⟨hor, _⟩
    rcases hor with h | h
    · exact hw h
    · exact hh h
  have hrh : resolvedHeight env p = env.videoHeight := by
    unfold resolvedHeight
    rw [if_neg]
    rintro ⟨hor, _⟩
    rcases hor with h | h
    · exact hw h
    · exact hh h
  have h1 : (capture env p st).1 =
      (if isBlankData (sampleData env.frame (Nat.min 10 env.videoWidth)
          (Nat.min 10 env.videoHeight)) = true
       then none else some st.canvasId) := by
    unfold capture
    dsimp only
    rw [if_neg (by simp [hv, hc, ha]), if_neg (by simp [hready]),
      if_neg (by rw [hrw, hrh]; simp [hw, hh]),
      if_neg (by simp [hctx]), if_neg (by simp [hdraw]), hrw, hrh]
    split <;> rfl
  have hiff := isBlankData_sample_iff env.frame
    (Nat.min 10 env.videoWidth) (Nat.min 10 env.videoHeight)
  constructor
  · rw [h1]
    constructor
    · intro hnone
      rcases hb : isBlankData (sampleData env.frame (Nat.min 10 env.videoWidth)
          (Nat.min 10 env.videoHeight)) with _ | _
      · rw [hb] at hnone
        simp at hnone
      · exact hiff.1 hb
    · intro hall
      rw [if_pos (hiff.2 hall)]
  · intro hall
    rw [h1, if_pos (hiff.2 (fun x y _ _ => hall x y))]

/-- A capture environment whose frame is fully black (zero RGB, opaque
alpha). -/
def envBlackFrame : CaptureEnv :=
  { envFrameA with frame := fun _ _ => ⟨0, 0, 0, 255⟩ }

/-- Witness for C5: the fully black synthetic frame makes `capture` return
none. -/
theorem capture_blank_frame_heuristic_witness :
    (capture envBlackFrame defaultProps activeState).1 = none :=
  (capture_blank_frame_heuristic envBlackFrame defaultProps activeState
    rfl rfl rfl rfl (by decide) (by decide) rfl rfl).2
    (fun x y => ⟨rfl, rfl, rfl⟩)

/-! ### C6 — capture precondition failures -/

/-- On any completed failing run, `startCamera` leaves `isActive`
unchanged. -/
theorem startCamera_failed_isActive (env : StartEnv) (st : CamState)
    (r : StartResult) (hr : startCamera env st = some r)
    (hok : r.ok = false) : r.state.isActive = st.isActive := by
  unfold startCamera at hr
  dsimp only at hr
  split at hr
  · cases Option.some.inj hr
    rfl
  · split at hr
    · split at hr
      · split at hr
        · cases hr
        · split at hr
          · cases Option.some.inj hr
            cases hok
          · cases Option.some.inj hr
            dsimp only
            exact handleError_isActive _ _
      · cases Option.some.inj hr
        rfl
    · cases Option.some.inj hr
      dsimp only
      exact handleError_isActive _ _
    · cases Option.some.inj hr
      dsimp only
      exact handleError_isActive _ _

/-- C6: every capture precondition failure returns none (the model has no
exception channel: thrown draw errors are already folded into the `none`
result).  In the order checked: inactive session (leaving the state
untouched); decoding readiness below 2 without the mobile recheck window;
the mobile single 500 ms recheck still below 2; and resolved dimensions
zero even after the mobile-only element-size fallback.  Moreover `capture`
on the initial state always returns none, and a failed `startCamera` leaves
`isActive` unchanged, so a capture before any successful start is a capture
on an inactive session. -/
theorem capture_precondition_failures_return_none (env : CaptureEnv)
    (p : Props) (st : CamState) :
    (st.isActive = false →
      (capture env p st).1 = none ∧ (capture env p st).2 = st) ∧
    (env.readyState < 2 → ¬(env.isMobile = true ∧ 1 ≤ env.readyState) →
      (capture env p st).1 = none) ∧
    (env.readyState < 2 → env.isMobile = true → 1 ≤ env.readyState →
      env.readyStateAfterWait < 2 → (capture env p st).1 = none) ∧
    (resolvedWidth env p = 0 ∨ resolvedHeight env p = 0 →
      (capture env p st).1 = none) ∧
    ((capture env p initState).1 = none) ∧
    (∀ (env2 : StartEnv) (r : StartResult), startCamera env2 st = some r →
      r.ok = false → r.state.isActive = st.isActive) := by
  have hinactive : ∀ (st2 : CamState), st2.isActive = false →
      capture env p st2 = (none, st2) := by
    intro st2 h2
    unfold capture
    rw [if_pos (Or.inr (Or.inr h2))]
  refine ⟨?_, ?_, ?_, ?_, ?_, ?_⟩
  · intro h
    rw [hinactive st h]
    exact ⟨rfl, rfl⟩
  · intro hrs hcond
    have hcr : captureReady env = false := by
      unfold captureReady
      rw [if_pos hrs, if_neg hcond]
    by_cases hfirst : env.videoPresent = false ∨ env.canvasPresent = false ∨
        st.isActive = false
    · unfold capture
      rw [if_pos hfirst]
    · unfold capture
      rw [if_neg hfirst, if_pos hcr]
  · intro hrs hm h1 hafter
    have hcr : captureReady env = false := by
      unfold captureReady
      rw [if_pos hrs, if_pos ⟨hm, h1⟩]
      have hnot : ¬ (2 ≤ env.readyStateAfterWait) := by omega
      simp [hnot]
    by_cases hfirst : env.videoPresent = false ∨ env.canvasPresent = false ∨
        st.isActive = false
    · unfold capture
      rw [if_pos hfirst]
    · unfold capture
      rw [if_neg hfirst, if_pos hcr]
  · intro hdims
    by_cases hfirst : env.videoPresent = false ∨ env.canvasPresent = false ∨
        st.isActive = false
    · unfold capture
      rw [if_pos hfirst]
    · by_cases hcr : captureReady env = false
      · unfold capture
        rw [if_neg hfirst, if_pos hcr]
      · unfold capture
        dsimp only
        rw [if_neg hfirst, if_neg hcr, if_pos hdims]
  · rw [hinactive initState rfl]
  · exact fun env2 r hr hok => startCamera_failed_isActive env2 st r hr hok

/-- A desktop capture environment whose video has not yet produced a
decodable frame. -/
def envNotReady : CaptureEnv :=
  { envFrameA with readyState := 1, readyStateAfterWait := 1 }

/-- Witness for C6: capture on the never-started initial state returns
none, and capture on an active session with `readyState` 1 on desktop
returns none. -/
theorem capture_precondition_failures_return_none_witness :
    (capture envFrameA defaultProps initState).1 = none ∧
    (capture envNotReady defaultProps activeState).1 = none :=
  ⟨(capture_precondition_failures_return_none envFrameA defaultProps
      initState).2.2.2.2.1,
   (capture_precondition_failures_return_none envNotReady defaultProps
      activeState).2.1 (by decide) (by decide)⟩

/-! ### C7 — capture dimensions match the negotiated stream -/

/-- C7: a successful `capture` on a session over stream `s` whose video
element reports the stream's resolved (nonzero) natural dimensions returns
the canvas sized exactly to those dimensions. -/
theorem capture_dims_match_stream (env : CaptureEnv) (p : Props)
    (st : CamState) (s : Stream) (h : Nat)
    (hsr : st.streamRef = some s)
    (hw : env.videoWidth = s.width) (hh : env.videoHeight = s.height)
    (hw0 : s.width ≠ 0) (hh0 : s.height ≠ 0)
    (hcap : (capture env p st).1 = some h) :
    (capture env p st).2.canvasW = s.width ∧
    (capture env p st).2.canvasH = s.height := by
  have hrw : resolvedWidth env p = env.videoWidth := by
    unfold resolvedWidth
    rw [if_neg]
    rintro ⟨hor, _⟩
    rcases hor with h2 | h2
    · exact hw0 (hw ▸ h2)
    · exact hh0 (hh ▸ h2)
  have hrh : resolvedHeight env p = env.videoHeight := by
    unfold resolvedHeight
    rw [if_neg]
    rintro ⟨hor, _⟩
    rcases hor with h2 | h2
    · exact hw0 (hw ▸ h2)
    · exact hh0 (hh ▸ h2)
  rcases capture_spec env p st with hnone | hsucc
  · rw [hnone] at hcap
    cases hcap
  · rw [hsucc.2.1]
    dsimp only
    rw [hrw, hrh, hw, hh]
    exact ⟨rfl, rfl⟩

/-- An active session over the 640 × 480 stream. -/
def activeStreamState : CamState :=
  { initState with isActive := true, streamRef := some ⟨640, 480, [1]⟩ }

/-- Witness for C7: a successful capture of the non-black frame returns the
canvas sized to the stream's 640 × 480. -/
theorem capture_dims_match_stream_witness :
    (capture envFrameA defaultProps activeStreamState).2.canvasW = 640 ∧
    (capture envFrameA defaultProps activeStreamState).2.canvasH = 480 :=
  capture_dims_match_stream envFrameA defaultProps activeStreamState
    ⟨640, 480, [1]⟩ activeStreamState.canvasId rfl rfl rfl
    (by decide) (by decide) (by decide)

end FaceCam
